import Mathlib

/-!
Shallow embedding of the mixta_flask question-selection and progression
engine.

The embedding follows the Python source of the repository:

* `ConnectionModule.execute_query`
  (plugins/main_plugin/modules/connection_module/connection_module.py):
  each call opens a cursor, executes one statement and commits on its own;
  any exception is caught, logged, and swallowed, so the database is left
  unchanged and control continues.
* `RewardsModule.update_rewards` and `RewardsModule._get_names_from_yaml`
  (plugins/game_plugin/modules/rewards_module/rewards_module.py).
* `QuestionModule.get_question`
  (plugins/game_plugin/modules/question_module/question_module.py).
* `LoginModule.delete_user_data`
  (plugins/main_plugin/modules/login_module/login_module.py).

Python dicts (the YAML catalogs, the category definitions) are modelled as
association lists with first-match lookup; dict keys are unique, so the
semantics agree.  Database tables are lists of rows.  The random shuffles
of the question module are injected as explicit functions, constrained to
be permutations where a theorem needs that.
-/

/-- A row of the `users` table (the columns the engine touches). -/
structure UserRow where
  id : Nat
  username : String
  total_points : Int
deriving Repr, DecidableEq

/-- A row of the `user_category_progress` table. -/
structure ProgressRow where
  user_id : Nat
  category : String
  level : Int
  points : Int
deriving Repr, DecidableEq

/-- A row of the `guessed_names` table, unique on all four columns. -/
structure GuessedRow where
  user_id : Nat
  category : String
  level : Int
  guessed_name : String
deriving Repr, DecidableEq

/-- The persisted database state the engine reads and writes. -/
structure DB where
  users : List UserRow
  progress : List ProgressRow
  guessed : List GuessedRow
deriving Repr, DecidableEq

/-- `UPDATE user_category_progress SET points = %s WHERE user_id = %s AND
category = %s AND level = %s`. -/
def updateProgressPoints (uid : Nat) (cat : String) (lvl : Int) (pts : Int)
    (db : DB) : DB :=
  { db with progress := db.progress.map (fun r =>
      if r.user_id == uid && r.category == cat && r.level == lvl then
        { r with points := pts }
      else r) }

/-- `INSERT INTO user_category_progress (user_id, category, level, points)
VALUES (%s, %s, %s, %s)`. -/
def insertProgressRow (row : ProgressRow) (db : DB) : DB :=
  { db with progress := db.progress ++ [row] }

/-- `INSERT IGNORE INTO guessed_names (user_id, category, level,
guessed_name) VALUES (%s, %s, %s, %s)`: the table is unique on all four
columns, so an existing identical row makes the insert a no-op. -/
def insertGuessedIgnore (row : GuessedRow) (db : DB) : DB :=
  if db.guessed.contains row then db
  else { db with guessed := db.guessed ++ [row] }

/-- `UPDATE users SET total_points = %s WHERE id = %s`. -/
def updateUserTotalPoints (uid : Nat) (tp : Int) (db : DB) : DB :=
  { db with users := db.users.map (fun u =>
      if u.id == uid then { u with total_points := tp } else u) }

/-- `DELETE FROM guessed_names WHERE user_id = %s`. -/
def deleteGuessedFor (uid : Nat) (db : DB) : DB :=
  { db with guessed := db.guessed.filter (fun r => !(r.user_id == uid)) }

/-- `DELETE FROM user_category_progress WHERE user_id = %s`. -/
def deleteProgressFor (uid : Nat) (db : DB) : DB :=
  { db with progress := db.progress.filter (fun r => !(r.user_id == uid)) }

/-- `DELETE FROM users WHERE id = %s`. -/
def deleteUserRow (uid : Nat) (db : DB) : DB :=
  { db with users := db.users.filter (fun u => !(u.id == uid)) }

/-- State threaded through a sequence of `execute_query` calls inside one
request handler: the database plus the index of the next write statement
(used to address the failure oracle at that statement). -/
structure ExecState where
  db : DB
  idx : Nat
deriving Repr, DecidableEq

/-- `ConnectionModule.execute_query` for a write statement `w`.  The Python
method commits each statement on its own and catches every exception,
merely logging it: on failure the database is unchanged and the caller
continues as if the write had succeeded.  `fail n` says whether the n-th
write statement of the enclosing operation raises. -/
def execute_query (fail : Nat → Bool) (w : DB → DB) (s : ExecState) :
    ExecState :=
  { db := if fail s.idx then s.db else w s.db, idx := s.idx + 1 }

/-- Python's `str.lower()`, character by character.  (This is Lean's
`String.toLower` written over the character list so that the kernel can
evaluate it on literals.) -/
def pyLower (s : String) : String := ⟨s.data.map Char.toLower⟩

/-- The names YAML catalog: level key (a string) → category → ordered list
of names, as loaded by `QuestionModule.load_yaml`. -/
abbrev NamesYaml := List (String × List (String × List String))

/-- `RewardsModule._get_names_from_yaml`: `none` stands for a failed YAML
load (the method returns `[]` then); otherwise look up `str(level)`, then
the category, and lowercase every name.  Any missing key yields `[]`. -/
def get_names_from_yaml (yaml : Option NamesYaml) (category : String)
    (level : Int) : List String :=
  match yaml with
  | none => []
  | some questions =>
    match questions.find? (fun p => p.1 == toString level) with
    | none => []
    | some (_, level_data) =>
      match level_data.find? (fun p => p.1 == category) with
      | some (_, names) => names.map (fun n => pyLower n)
      | none => []

/-- The JSON body of a `/update-rewards` request, as read by
`RewardsModule.update_rewards`. -/
structure RewardsRequest where
  category : String
  level : Int
  points : Int
  guessed_names : List String
  username : Option String
  total_points : Option Int
deriving Repr, DecidableEq

/-- The HTTP response of `update_rewards`: 400 when the username is
missing, 404 when the user is unknown, otherwise 200 with the
`levelUp`/`endGame` flags. -/
inductive RewardsResponse
  | missingUsername
  | userNotFound
  | ok (levelUp endGame : Bool)
deriving Repr, DecidableEq

/-- `SELECT id FROM users WHERE username = %s` (first row). -/
def findUser (db : DB) (uname : String) : Option UserRow :=
  db.users.find? (fun u => u.username == uname)

/-- `SELECT points FROM user_category_progress WHERE user_id = %s AND
category = %s AND level = %s` (first row). -/
def findProgress (db : DB) (uid : Nat) (cat : String) (lvl : Int) :
    Option ProgressRow :=
  db.progress.find? (fun r =>
    r.user_id == uid && r.category == cat && r.level == lvl)

/-- Stored points for (user, category, level), defaulting to 0 when the
row is absent, exactly as `update_rewards` reads them. -/
def getPoints (db : DB) (uid : Nat) (cat : String) (lvl : Int) : Int :=
  ((findProgress db uid cat lvl).map (fun r => r.points)).getD 0

/-- The score-upsert step of `update_rewards`: write only when the new
points exceed the stored ones, `UPDATE` when a row exists, `INSERT`
otherwise.  This is the first `execute_query` of the handler. -/
def scoreUpsertState (fail : Nat → Bool) (db : DB) (uid : Nat)
    (req : RewardsRequest) : ExecState :=
  if req.points > getPoints db uid req.category req.level then
    match findProgress db uid req.category req.level with
    | some _ =>
      execute_query fail
        (updateProgressPoints uid req.category req.level req.points)
        ⟨db, 0⟩
    | none =>
      execute_query fail
        (insertProgressRow ⟨uid, req.category, req.level, req.points⟩)
        ⟨db, 0⟩
  else ⟨db, 0⟩

/-- The guessed-names loop of `update_rewards`: one `INSERT IGNORE` per
submitted name, in order. -/
def guessedInsertsState (fail : Nat → Bool) (uid : Nat)
    (req : RewardsRequest) (s : ExecState) : ExecState :=
  req.guessed_names.foldl (fun s n =>
    execute_query fail (insertGuessedIgnore ⟨uid, req.category, req.level, n⟩) s) s

/-- The total-points step of `update_rewards`: overwrite
`users.total_points` with the client-reported value when one was sent. -/
def totalPointsState (fail : Nat → Bool) (uid : Nat)
    (req : RewardsRequest) (s : ExecState) : ExecState :=
  match req.total_points with
  | some tp => execute_query fail (updateUserTotalPoints uid tp) s
  | none => s

/-- The transition decision of `update_rewards`: `missing_names` is the
catalog name set minus the guessed names submitted in this request;
`max_level` comes from the category definitions with default 1.  Level-up
when nothing is missing and the level is below max, end-game when nothing
is missing at or above max. -/
def rewardFlags (yaml : Option NamesYaml) (categoryData : List (String × Int))
    (req : RewardsRequest) : Bool × Bool :=
  let all_names := get_names_from_yaml yaml req.category req.level
  let missing := all_names.filter (fun n => !(req.guessed_names.contains n))
  let maxLevel := ((categoryData.find? (fun p => p.1 == req.category)).map
    Prod.snd).getD 1
  if missing.isEmpty then
    if req.level < maxLevel then (true, false) else (false, true)
  else (false, false)

/-- `RewardsModule.update_rewards`: resolve the user, run the score
upsert, the guessed-name inserts and the total-points overwrite (each a
separate `execute_query`, each committing or silently failing on its
own), then compute the transition flags and answer 200. `categoryData`
is the category → levels mapping read through
`FunctionHelperModule._load_categories_data`. -/
def update_rewards (yaml : Option NamesYaml)
    (categoryData : List (String × Int)) (fail : Nat → Bool) (db : DB)
    (req : RewardsRequest) : DB × RewardsResponse :=
  match req.username with
  | none => (db, .missingUsername)
  | some uname =>
    if uname == "" then (db, .missingUsername)
    else
      match findUser db uname with
      | none => (db, .userNotFound)
      | some user =>
        let s := totalPointsState fail user.id req
          (guessedInsertsState fail user.id req
            (scoreUpsertState fail db user.id req))
        let flags := rewardFlags yaml categoryData req
        (s.db, .ok flags.1 flags.2)

/-- `LoginModule.delete_user_data`: three separate `execute_query` calls —
guessed names, then category progress, then the user row — followed by an
unconditional success response (exceptions inside `execute_query` are
swallowed there, so the surrounding `try` never fires on a write error). -/
def delete_user_data (fail : Nat → Bool) (db : DB) (user_id : Nat) :
    DB × Bool :=
  let s1 := execute_query fail (deleteGuessedFor user_id) ⟨db, 0⟩
  let s2 := execute_query fail (deleteProgressFor user_id) s1
  let s3 := execute_query fail (deleteUserRow user_id) s2
  (s3.db, true)

/-- One entry of `celeb_data.yml`: the facts and the category list of a
name at a level. -/
structure CelebEntry where
  facts : List String
  categories : List String
deriving Repr, DecidableEq

/-- The `celeb_data.yml` catalog: level key → name → entry. -/
abbrev CelebYaml := List (String × List (String × CelebEntry))

/-- The HTTP response of `QuestionModule.get_question`.
`levelNotFound` is the 404 "No data available for level" response;
`noNamesRemaining` is the 200 "No more names left to guess" response (the
terminal signal, distinguished from real errors by its 200 status);
`dataNotFound` and `noCategory` are the 500 responses for a name missing
from `celeb_data.yml` or carrying no category list. -/
inductive QuestionResponse
  | levelNotFound
  | noNamesRemaining
  | dataNotFound (name : String)
  | noCategory (name : String)
  | question (actor : String) (category : String) (facts : List String)
      (level : String) (image_url : String)
      (distractor_images : List String) (distractor_names : List String)
deriving Repr, DecidableEq

/-- Steps 1–2 of `get_question`: the candidate pool of a level's data for
the (already lowercased) request category — the category's own list, or
the flattened union of all category lists for "mixed" — with every name
equal to one of the (already lowercased) guessed names removed.  Pool
names are compared exactly as written in the catalog. -/
def candidatePool (level_data : List (String × List String))
    (category : String) (guessed : List String) : List String :=
  (if category != "mixed" then
    ((level_data.find? (fun p => p.1 == category)).map Prod.snd).getD []
  else (level_data.map Prod.snd).flatten).filter
    (fun n => !(guessed.contains n))

/-- `QuestionModule.get_question`.

`shuffle1`, `shuffle2`, `shuffle3` stand for the three `random.shuffle`
calls (candidate pool, same-category distractors, top-up distractors);
`sample3` stands for `random.sample(facts, 3)` when more than three facts
exist; `imageOf` stands for `get_image_url` (a filesystem lookup with a
default image on miss — an external collaborator).  `names_data` and
`celeb_data` are the two loaded YAML catalogs (`none` = load failure).
`levelReq` is the request level already stringified (`str(data.get
("level", 1))` in the source); the request category is lowercased and the
guessed names are lowercased before the pool filter, while pool names are
compared exactly as written in the catalog. -/
def get_question (shuffle1 shuffle2 shuffle3 : List String → List String)
    (sample3 : List String → List String) (imageOf : String → String)
    (names_data : Option NamesYaml) (celeb_data : Option CelebYaml)
    (levelReq : String) (categoryReq : String)
    (guessed_names : List String) : QuestionResponse :=
  let level := levelReq
  let category := pyLower categoryReq
  let guessed := guessed_names.map (fun n => pyLower n)
  match names_data with
  | none => .levelNotFound
  | some nd =>
    match nd.find? (fun p => p.1 == level) with
    | none => .levelNotFound
    | some (_, level_data) =>
      let available := shuffle1 (candidatePool level_data category guessed)
      match available with
      | [] => .noNamesRemaining
      | selected :: _ =>
        match celeb_data with
        | none => .dataNotFound selected
        | some cd =>
          match (cd.find? (fun p => p.1 == level)).bind
              (fun p => p.2.find? (fun q => q.1 == selected)) with
          | none => .dataNotFound selected
          | some (_, entry) =>
            let facts :=
              if entry.facts.length > 3 then sample3 entry.facts
              else entry.facts
            match entry.categories with
            | [] => .noCategory selected
            | c0 :: _ =>
              let selCat := pyLower c0
              let all_cat :=
                ((level_data.find? (fun p => p.1 == selCat)).map Prod.snd).getD []
              let d1 := (shuffle2 (all_cat.filter (fun n => n != selected))).take 3
              let ds :=
                if d1.length < 3 then
                  d1 ++ (shuffle3 (available.filter
                    (fun n => !(d1.contains n) && n != selected))).take (3 - d1.length)
                else d1
              .question selected selCat facts level (imageOf selected)
                (ds.map imageOf) ds

/-! ## Theorems -/

/-- C1: the steps 3–5 of `update_rewards` do not commit or abort as one
unit.  With a storage failure injected at the first guessed-name insert
(write index 1) right after a successful score upsert (write index 0),
the handler leaves the score upsert committed, stores no guessed name,
and still answers 200: a failure between the score upsert and the
guessed-name upserts leaves exactly one of the two writes committed. -/
theorem update_rewards_partial_commit_on_injected_failure :
    update_rewards (some [("1", [("cats", ["a", "b"])])]) [("cats", 2)]
      (fun n => n == 1) ⟨[⟨1, "u", 0⟩], [], []⟩
      ⟨"cats", 1, 10, ["a"], some "u", none⟩ =
      (⟨[⟨1, "u", 0⟩], [⟨1, "cats", 1, 10⟩], []⟩, .ok false false) := by
  decide

/-- C5: `execute_query` swallows every storage failure, so the engine
logs and continues.  With every write raising, `update_rewards` leaves
the database untouched yet still answers the 200 success response — a
storage failure is never surfaced to the caller. -/
theorem update_rewards_success_despite_failed_writes :
    update_rewards (some [("1", [("cats", ["a", "b"])])]) [("cats", 2)]
      (fun _ => true) ⟨[⟨1, "u", 0⟩], [], []⟩
      ⟨"cats", 1, 10, ["a"], some "u", some 3⟩ =
      (⟨[⟨1, "u", 0⟩], [], []⟩, .ok false false) := by
  decide

/-- C7: `delete_user_data` is not atomic.  With a storage failure
injected at the third delete (the `users` row), the guessed-name and
category-progress deletions stay committed while the user row remains —
precisely the partial state the claim rules out — and the handler still
reports success. -/
theorem delete_user_data_partial_deletion :
    delete_user_data (fun n => n == 2)
      ⟨[⟨1, "u", 7⟩], [⟨1, "cats", 1, 5⟩], [⟨1, "cats", 1, "a"⟩]⟩ 1 =
      (⟨[⟨1, "u", 7⟩], [], []⟩, true) := by
  decide

/-- C2 counterexample: the stored guessed set of user 1 already covers
the whole catalog `{n1, n2}` of ("cats", level 1) and `1 < maxLevel = 2`,
so the claim predicts `levelUp = true`; but `update_rewards` computes
`missing` from the guessed names submitted in this call (here none),
never reading the stored set, and answers `levelUp = false`,
`endGame = false`. -/
theorem update_rewards_ignores_stored_guessed_set :
    get_names_from_yaml (some [("1", [("cats", ["n1", "n2"])])]) "cats" 1 =
      ["n1", "n2"] ∧
    (update_rewards (some [("1", [("cats", ["n1", "n2"])])]) [("cats", 2)]
      (fun _ => false)
      ⟨[⟨1, "u", 0⟩], [], [⟨1, "cats", 1, "n1"⟩, ⟨1, "cats", 1, "n2"⟩]⟩
      ⟨"cats", 1, 5, [], some "u", none⟩).2 = .ok false false := by
  decide

/-- C4 counterexample: the catalog spells the name "Alice" and the user
has already guessed "Alice", yet `get_question` returns "Alice" as the
target: guessed names are lowercased to "alice" while pool names are
compared as written, so the claimed case-insensitive no-repeat filter
does not hold — the target is in the guessed set. -/
theorem get_question_returns_guessed_name :
    get_question id id id id (fun _ => "img")
      (some [("1", [("actors", ["Alice"])])])
      (some [("1", [("Alice", ⟨[], ["actors"]⟩)])])
      "1" "actors" ["Alice"] =
      .question "Alice" "actors" [] "1" "img" [] [] ∧
    "Alice" ∈ ["Alice"] := by
  constructor
  · decide
  · decide

/-- C9 counterexample: under category "mixed" a name listed in two
categories appears twice in the flattened pool; with the identity
shuffle (a possible outcome of `random.shuffle`) the top-up step then
returns the duplicate pair ["y", "y"] as distractors, so the returned
distractor names are not pairwise distinct. -/
theorem get_question_duplicate_distractors :
    get_question id id id id (fun _ => "img")
      (some [("1", [("a", ["x"]), ("b", ["y"]), ("c", ["y"])])])
      (some [("1", [("x", ⟨[], ["a"]⟩)])])
      "1" "mixed" [] =
      .question "x" "a" [] "1" "img" ["img", "img"] ["y", "y"] ∧
    ¬ (["y", "y"] : List String).Nodup := by
  constructor
  · decide
  · decide

/-! ### Helper lemmas about the rewards stages -/

theorem execute_query_success (w : DB → DB) (s : ExecState) :
    execute_query (fun _ => false) w s = ⟨w s.db, s.idx + 1⟩ := rfl

theorem insertGuessedIgnore_users (r : GuessedRow) (db : DB) :
    (insertGuessedIgnore r db).users = db.users := by
  unfold insertGuessedIgnore; split <;> rfl

theorem insertGuessedIgnore_progress (r : GuessedRow) (db : DB) :
    (insertGuessedIgnore r db).progress = db.progress := by
  unfold insertGuessedIgnore; split <;> rfl

theorem scoreUpsertState_users (fail : Nat → Bool) (db : DB) (uid : Nat)
    (req : RewardsRequest) :
    (scoreUpsertState fail db uid req).db.users = db.users := by
  unfold scoreUpsertState execute_query updateProgressPoints insertProgressRow
  split
  · split <;> dsimp <;> split <;> rfl
  · rfl

theorem scoreUpsertState_guessed (fail : Nat → Bool) (db : DB) (uid : Nat)
    (req : RewardsRequest) :
    (scoreUpsertState fail db uid req).db.guessed = db.guessed := by
  unfold scoreUpsertState execute_query updateProgressPoints insertProgressRow
  split
  · split <;> dsimp <;> split <;> rfl
  · rfl

theorem guessedInsertsState_users (fail : Nat → Bool) (uid : Nat)
    (req : RewardsRequest) (s : ExecState) :
    (guessedInsertsState fail uid req s).db.users = s.db.users := by
  unfold guessedInsertsState
  generalize req.guessed_names = names
  induction names generalizing s with
  | nil => rfl
  | cons n ns ih =>
    rw [List.foldl_cons, ih]
    unfold execute_query
    dsimp
    split
    · rfl
    · exact insertGuessedIgnore_users _ _

theorem guessedInsertsState_progress (fail : Nat → Bool) (uid : Nat)
    (req : RewardsRequest) (s : ExecState) :
    (guessedInsertsState fail uid req s).db.progress = s.db.progress := by
  unfold guessedInsertsState
  generalize req.guessed_names = names
  induction names generalizing s with
  | nil => rfl
  | cons n ns ih =>
    rw [List.foldl_cons, ih]
    unfold execute_query
    dsimp
    split
    · rfl
    · exact insertGuessedIgnore_progress _ _

theorem totalPointsState_progress (fail : Nat → Bool) (uid : Nat)
    (req : RewardsRequest) (s : ExecState) :
    (totalPointsState fail uid req s).db.progress = s.db.progress := by
  unfold totalPointsState execute_query updateUserTotalPoints
  cases req.total_points with
  | none => rfl
  | some tp => dsimp; split <;> rfl

theorem totalPointsState_guessed (fail : Nat → Bool) (uid : Nat)
    (req : RewardsRequest) (s : ExecState) :
    (totalPointsState fail uid req s).db.guessed = s.db.guessed := by
  unfold totalPointsState execute_query updateUserTotalPoints
  cases req.total_points with
  | none => rfl
  | some tp => dsimp; split <;> rfl

theorem getPoints_congr (db db' : DB) (uid : Nat) (cat : String) (lvl : Int)
    (h : db.progress = db'.progress) :
    getPoints db uid cat lvl = getPoints db' uid cat lvl := by
  unfold getPoints findProgress
  rw [h]

/-- Resolving a user, then running the three write stages and answering
with the flags: the shape of `update_rewards` when the username is
present and resolves. -/
theorem update_rewards_run (yaml : Option NamesYaml)
    (categoryData : List (String × Int)) (fail : Nat → Bool) (db : DB)
    (req : RewardsRequest) (u : String) (user : UserRow)
    (hn : req.username = some u) (hne : u ≠ "")
    (hu : findUser db u = some user) :
    update_rewards yaml categoryData fail db req =
      ((totalPointsState fail user.id req
        (guessedInsertsState fail user.id req
          (scoreUpsertState fail db user.id req))).db,
       .ok (rewardFlags yaml categoryData req).1
         (rewardFlags yaml categoryData req).2) := by
  unfold update_rewards
  rw [hn]
  have hb : (u == "") = false := by
    simp only [beq_eq_false_iff_ne, ne_eq]
    exact hne
  simp only [hb, Bool.false_eq_true, if_false, hu]

theorem getPoints_updateProgressPoints (db : DB) (uid : Nat) (c : String)
    (l : Int) (p : Int) (r : ProgressRow)
    (hrow : findProgress db uid c l = some r) :
    getPoints (updateProgressPoints uid c l p db) uid c l = p := by
  have hr := List.find?_some hrow
  unfold getPoints findProgress updateProgressPoints
  unfold findProgress at hrow
  dsimp only
  rw [List.find?_map]
  have hpred : ((fun x : ProgressRow =>
        x.user_id == uid && x.category == c && x.level == l) ∘
      (fun x : ProgressRow =>
        if (x.user_id == uid && x.category == c && x.level == l) = true then
          { x with points := p } else x)) =
      (fun x : ProgressRow =>
        x.user_id == uid && x.category == c && x.level == l) := by
    funext x
    dsimp only [Function.comp]
    split
    · rfl
    · rfl
  rw [hpred, hrow]
  simp only [Bool.and_eq_true, beq_iff_eq] at hr
  obtain ⟨⟨h1, h2⟩, h3⟩ := hr
  simp [h1, h2, h3]

theorem getPoints_insertProgressRow (db : DB) (uid : Nat) (c : String)
    (l : Int) (p : Int) (hrow : findProgress db uid c l = none) :
    getPoints (insertProgressRow ⟨uid, c, l, p⟩ db) uid c l = p := by
  unfold getPoints findProgress insertProgressRow
  unfold findProgress at hrow
  dsimp only
  rw [List.find?_append, hrow]
  simp

theorem scoreUpsertState_points_of_gt (db : DB) (uid : Nat)
    (req : RewardsRequest)
    (h : req.points > getPoints db uid req.category req.level) :
    getPoints (scoreUpsertState (fun _ => false) db uid req).db uid
      req.category req.level = req.points := by
  unfold scoreUpsertState
  rw [if_pos h]
  cases hrow : findProgress db uid req.category req.level with
  | some r =>
    rw [execute_query_success]
    exact getPoints_updateProgressPoints db uid _ _ _ r hrow
  | none =>
    rw [execute_query_success]
    exact getPoints_insertProgressRow db uid _ _ _ hrow

theorem scoreUpsertState_of_le (fail : Nat → Bool) (db : DB) (uid : Nat)
    (req : RewardsRequest)
    (h : ¬ req.points > getPoints db uid req.category req.level) :
    scoreUpsertState fail db uid req = ⟨db, 0⟩ := by
  unfold scoreUpsertState
  rw [if_neg h]

theorem findUser_totalPointsState (fail : Nat → Bool) (uid : Nat)
    (req : RewardsRequest) (s : ExecState) (un : String) :
    ((findUser (totalPointsState fail uid req s).db un).map (fun x => x.id)) =
      ((findUser s.db un).map (fun x => x.id)) := by
  unfold totalPointsState
  cases req.total_points with
  | none => rfl
  | some tp =>
    unfold execute_query
    dsimp only
    split
    · rfl
    · unfold findUser updateUserTotalPoints
      dsimp only
      rw [List.find?_map]
      have hpred : ((fun x : UserRow => x.username == un) ∘
          (fun x : UserRow =>
            if (x.id == uid) = true then { x with total_points := tp } else x)) =
          (fun x : UserRow => x.username == un) := by
        funext x
        dsimp only [Function.comp]
        split <;> rfl
      rw [hpred, Option.map_map]
      congr 1
      funext x
      dsimp only [Function.comp]
      split <;> rfl

theorem findUser_update_rewards_id (yaml : Option NamesYaml)
    (categoryData : List (String × Int)) (fail : Nat → Bool) (db : DB)
    (req : RewardsRequest) (un : String) :
    ((findUser (update_rewards yaml categoryData fail db req).1 un).map
        (fun x => x.id)) =
      ((findUser db un).map (fun x => x.id)) := by
  unfold update_rewards
  cases hm : req.username with
  | none => rfl
  | some u =>
    dsimp only
    split
    · rfl
    · cases hu : findUser db u with
      | none => rfl
      | some user =>
        dsimp only
        rw [findUser_totalPointsState]
        unfold findUser
        rw [guessedInsertsState_users, scoreUpsertState_users]

/-- C3: stored CategoryProgress points are monotonic-on-accept.  With
every write succeeding and the username resolving to `user`: (i) a
submission with points strictly above the stored value stores exactly
the submitted value (updating the row, or inserting it when absent);
(ii) a submission with points at or below the stored value leaves the
progress table untouched and still answers 200; (iii) hence after
submitting `p1` above the stored value and then `p2 < p1`, the stored
points are still `p1`, and the second call also answers 200. -/
theorem update_rewards_monotonic_points (yaml : Option NamesYaml)
    (categoryData : List (String × Int)) (db : DB) (u : String)
    (user : UserRow) (c : String) (l p1 p2 : Int) (g1 g2 : List String)
    (t1 t2 : Option Int) (hne : u ≠ "") (hu : findUser db u = some user) :
    (p1 > getPoints db user.id c l →
      getPoints (update_rewards yaml categoryData (fun _ => false) db
        ⟨c, l, p1, g1, some u, t1⟩).1 user.id c l = p1) ∧
    (p1 ≤ getPoints db user.id c l →
      (update_rewards yaml categoryData (fun _ => false) db
        ⟨c, l, p1, g1, some u, t1⟩).1.progress = db.progress ∧
      ∃ lu eg, (update_rewards yaml categoryData (fun _ => false) db
        ⟨c, l, p1, g1, some u, t1⟩).2 = .ok lu eg) ∧
    (p1 > getPoints db user.id c l → p2 < p1 →
      getPoints (update_rewards yaml categoryData (fun _ => false)
        (update_rewards yaml categoryData (fun _ => false) db
          ⟨c, l, p1, g1, some u, t1⟩).1
        ⟨c, l, p2, g2, some u, t2⟩).1 user.id c l = p1 ∧
      ∃ lu eg, (update_rewards yaml categoryData (fun _ => false)
        (update_rewards yaml categoryData (fun _ => false) db
          ⟨c, l, p1, g1, some u, t1⟩).1
        ⟨c, l, p2, g2, some u, t2⟩).2 = .ok lu eg) := by
  have hrun1 := update_rewards_run yaml categoryData (fun _ => false) db
    ⟨c, l, p1, g1, some u, t1⟩ u user rfl hne hu
  have hprog1 : (update_rewards yaml categoryData (fun _ => false) db
      ⟨c, l, p1, g1, some u, t1⟩).1.progress =
      (scoreUpsertState (fun _ => false) db user.id
        ⟨c, l, p1, g1, some u, t1⟩).db.progress := by
    rw [hrun1]
    exact (totalPointsState_progress _ _ _ _).trans
      (guessedInsertsState_progress _ _ _ _)
  have partA : p1 > getPoints db user.id c l →
      getPoints (update_rewards yaml categoryData (fun _ => false) db
        ⟨c, l, p1, g1, some u, t1⟩).1 user.id c l = p1 := by
    intro hgt
    have hpts := scoreUpsertState_points_of_gt db user.id
      ⟨c, l, p1, g1, some u, t1⟩ hgt
    exact (getPoints_congr _ _ user.id c l hprog1).trans hpts
  refine ⟨partA, ?_, ?_⟩
  · intro hle
    have hnoop := scoreUpsertState_of_le (fun _ => false) db user.id
      ⟨c, l, p1, g1, some u, t1⟩ (by exact not_lt.mpr hle)
    constructor
    · rw [hprog1, hnoop]
    · exact ⟨_, _, by rw [hrun1]⟩
  · intro hgt hlt
    have hp1 := partA hgt
    have hid := findUser_update_rewards_id yaml categoryData (fun _ => false)
      db ⟨c, l, p1, g1, some u, t1⟩ u
    rw [hu] at hid
    cases hu2 : findUser (update_rewards yaml categoryData (fun _ => false) db
        ⟨c, l, p1, g1, some u, t1⟩).1 u with
    | none => rw [hu2] at hid; simp at hid
    | some user2 =>
      rw [hu2] at hid
      simp at hid
      have hid2 : user2.id = user.id := hid
      have hrun2 := update_rewards_run yaml categoryData (fun _ => false)
        (update_rewards yaml categoryData (fun _ => false) db
          ⟨c, l, p1, g1, some u, t1⟩).1
        ⟨c, l, p2, g2, some u, t2⟩ u user2 rfl hne hu2
      have hle2 : ¬ ((⟨c, l, p2, g2, some u, t2⟩ : RewardsRequest).points >
          getPoints (update_rewards yaml categoryData (fun _ => false) db
            ⟨c, l, p1, g1, some u, t1⟩).1 user2.id
            (⟨c, l, p2, g2, some u, t2⟩ : RewardsRequest).category
            (⟨c, l, p2, g2, some u, t2⟩ : RewardsRequest).level) := by
        dsimp only
        rw [hid2, hp1]
        omega
      have hnoop2 := scoreUpsertState_of_le (fun _ => false)
        (update_rewards yaml categoryData (fun _ => false) db
          ⟨c, l, p1, g1, some u, t1⟩).1 user2.id
        ⟨c, l, p2, g2, some u, t2⟩ hle2
      have hprog2 : (update_rewards yaml categoryData (fun _ => false)
          (update_rewards yaml categoryData (fun _ => false) db
            ⟨c, l, p1, g1, some u, t1⟩).1
          ⟨c, l, p2, g2, some u, t2⟩).1.progress =
          (update_rewards yaml categoryData (fun _ => false) db
            ⟨c, l, p1, g1, some u, t1⟩).1.progress := by
        rw [hrun2]
        refine ((totalPointsState_progress _ _ _ _).trans
          (guessedInsertsState_progress _ _ _ _)).trans ?_
        rw [hnoop2]
      constructor
      · exact (getPoints_congr _ _ user.id c l hprog2).trans hp1
      · exact ⟨_, _, by rw [hrun2]⟩

theorem filter_not_contains_isEmpty (xs g : List String) :
    (xs.filter (fun n => !(g.contains n))).isEmpty =
      xs.all (fun n => g.contains n) := by
  induction xs with
  | nil => rfl
  | cons a l ih =>
    cases h : g.contains a
    · simp only [List.filter_cons, List.all_cons, h, Bool.not_false, if_true,
        List.isEmpty_cons, Bool.false_and]
    · simp only [List.filter_cons, List.all_cons, h, Bool.not_true,
        Bool.false_eq_true, if_false, Bool.true_and]
      exact ih

/-- C2 (amended): the transition flags of `update_rewards` are computed
from the catalog name set minus the guessed names *submitted in this
call* — the stored guessed set is never read.  Whenever the username
resolves, the response is 200 with `levelUp` true exactly when every
catalog name for (category, level) is among the submitted names and
`level < maxLevel`, and `endGame` true exactly when every catalog name
is among the submitted names and `level ≥ maxLevel` (`maxLevel`
defaulting to 1 for a category absent from the category definitions). -/
theorem update_rewards_flags_from_submitted_delta (yaml : Option NamesYaml)
    (categoryData : List (String × Int)) (fail : Nat → Bool) (db : DB)
    (req : RewardsRequest) (u : String) (user : UserRow)
    (hn : req.username = some u) (hne : u ≠ "")
    (hu : findUser db u = some user) :
    (update_rewards yaml categoryData fail db req).2 =
      .ok ((get_names_from_yaml yaml req.category req.level).all
            (fun n => req.guessed_names.contains n) &&
           decide (req.level <
            ((categoryData.find? (fun p => p.1 == req.category)).map
              Prod.snd).getD 1))
          ((get_names_from_yaml yaml req.category req.level).all
            (fun n => req.guessed_names.contains n) &&
           !decide (req.level <
            ((categoryData.find? (fun p => p.1 == req.category)).map
              Prod.snd).getD 1)) := by
  rw [update_rewards_run yaml categoryData fail db req u user hn hne hu]
  unfold rewardFlags
  dsimp only
  rw [filter_not_contains_isEmpty]
  cases h : (get_names_from_yaml yaml req.category req.level).all
      (fun n => req.guessed_names.contains n)
  · simp [h]
  · by_cases hl : req.level <
        ((categoryData.find? (fun p => p.1 == req.category)).map Prod.snd).getD 1
    · simp [h, hl]
    · simp [h, hl]

theorem insertGuessedIgnore_mem (r : GuessedRow) (db : DB)
    (row : GuessedRow) :
    row ∈ (insertGuessedIgnore r db).guessed ↔
      row ∈ db.guessed ∨ row = r := by
  unfold insertGuessedIgnore
  split
  · rename_i h
    constructor
    · exact Or.inl
    · rintro (hm | rfl)
      · exact hm
      · exact List.mem_of_elem_eq_true h
  · simp [List.mem_append]

theorem insertGuessedIgnore_noop (r : GuessedRow) (db : DB)
    (h : r ∈ db.guessed) :
    insertGuessedIgnore r db = db := by
  unfold insertGuessedIgnore
  rw [if_pos (List.elem_eq_true_of_mem h)]

theorem foldl_insertGuessed_mem (uid : Nat) (c : String) (l : Int)
    (names : List String) (s : ExecState) (row : GuessedRow) :
    row ∈ (names.foldl (fun s n =>
        execute_query (fun _ => false)
          (insertGuessedIgnore ⟨uid, c, l, n⟩) s) s).db.guessed ↔
      row ∈ s.db.guessed ∨
        (row.user_id = uid ∧ row.category = c ∧ row.level = l ∧
          row.guessed_name ∈ names) := by
  induction names generalizing s with
  | nil => simp
  | cons n ns ih =>
    rw [List.foldl_cons, ih, execute_query_success]
    dsimp only
    rw [insertGuessedIgnore_mem]
    obtain ⟨ru, rc, rl, rn⟩ := row
    simp only [GuessedRow.mk.injEq, List.mem_cons]
    tauto

theorem foldl_insertGuessed_noop (uid : Nat) (c : String) (l : Int)
    (names : List String) (s : ExecState)
    (h : ∀ n ∈ names, (⟨uid, c, l, n⟩ : GuessedRow) ∈ s.db.guessed) :
    (names.foldl (fun s n =>
        execute_query (fun _ => false)
          (insertGuessedIgnore ⟨uid, c, l, n⟩) s) s).db.guessed =
      s.db.guessed := by
  induction names generalizing s with
  | nil => rfl
  | cons n ns ih =>
    rw [List.foldl_cons, execute_query_success]
    have hn := h n (List.mem_cons_self n ns)
    rw [insertGuessedIgnore_noop _ _ hn]
    exact ih _ (fun m hm => h m (List.mem_cons_of_mem _ hm))

/-- C6: guessed-name storage has set-union semantics.  With every write
succeeding and the username resolving: (i) a row is stored after the
call exactly when it was stored before or matches (user, category,
level, n) for some submitted name n — names accumulate across calls into
a set; (ii) when every submitted name is already stored for that (user,
category, level), the stored guessed rows are left completely unchanged
(insert is idempotent: a set, not a multiset). -/
theorem update_rewards_guessed_union (yaml : Option NamesYaml)
    (categoryData : List (String × Int)) (db : DB) (req : RewardsRequest)
    (u : String) (user : UserRow) (hn : req.username = some u)
    (hne : u ≠ "") (hu : findUser db u = some user) :
    (∀ row : GuessedRow,
      row ∈ (update_rewards yaml categoryData (fun _ => false) db req).1.guessed ↔
        row ∈ db.guessed ∨
          (row.user_id = user.id ∧ row.category = req.category ∧
            row.level = req.level ∧ row.guessed_name ∈ req.guessed_names)) ∧
    ((∀ n ∈ req.guessed_names,
        (⟨user.id, req.category, req.level, n⟩ : GuessedRow) ∈ db.guessed) →
      (update_rewards yaml categoryData (fun _ => false) db req).1.guessed =
        db.guessed) := by
  have hrun := update_rewards_run yaml categoryData (fun _ => false) db req
    u user hn hne hu
  have hg : (update_rewards yaml categoryData (fun _ => false) db req).1.guessed =
      (guessedInsertsState (fun _ => false) user.id req
        (scoreUpsertState (fun _ => false) db user.id req)).db.guessed := by
    rw [hrun]
    exact totalPointsState_guessed _ _ _ _
  have hsg : (scoreUpsertState (fun _ => false) db user.id req).db.guessed =
      db.guessed := scoreUpsertState_guessed _ _ _ _
  constructor
  · intro row
    rw [hg]
    unfold guessedInsertsState
    rw [foldl_insertGuessed_mem, hsg]
  · intro hall
    rw [hg]
    unfold guessedInsertsState
    rw [foldl_insertGuessed_noop, hsg]
    intro n hn2
    rw [hsg]
    exact hall n hn2

/-- C10: a reward submission whose category is missing from the catalog
at the given level (or whose level key is unknown, or whose catalog
failed to load) is not rejected: the catalog name set is treated as
empty, so `missing` is empty and, with the username resolving and every
write succeeding, the call answers 200 with `levelUp` when
`level < maxLevel` and `endGame` otherwise (`maxLevel` read from the
category definitions with default 1), after still performing the
guessed-name inserts and the score upsert. -/
theorem update_rewards_unknown_category (yaml : Option NamesYaml)
    (categoryData : List (String × Int)) (db : DB) (req : RewardsRequest)
    (u : String) (user : UserRow) (hn : req.username = some u)
    (hne : u ≠ "") (hu : findUser db u = some user)
    (hmiss : yaml = none ∨
      (∃ q, yaml = some q ∧
        q.find? (fun p => p.1 == toString req.level) = none) ∨
      (∃ q k ld, yaml = some q ∧
        q.find? (fun p => p.1 == toString req.level) = some (k, ld) ∧
        ld.find? (fun p => p.1 == req.category) = none)) :
    (update_rewards yaml categoryData (fun _ => false) db req).2 =
      .ok (decide (req.level <
            ((categoryData.find? (fun p => p.1 == req.category)).map
              Prod.snd).getD 1))
          (!decide (req.level <
            ((categoryData.find? (fun p => p.1 == req.category)).map
              Prod.snd).getD 1)) ∧
    (∀ n ∈ req.guessed_names,
      (⟨user.id, req.category, req.level, n⟩ : GuessedRow) ∈
        (update_rewards yaml categoryData (fun _ => false) db req).1.guessed) ∧
    (req.points > getPoints db user.id req.category req.level →
      getPoints (update_rewards yaml categoryData (fun _ => false) db req).1
        user.id req.category req.level = req.points) := by
  have hempty : get_names_from_yaml yaml req.category req.level = [] := by
    unfold get_names_from_yaml
    rcases hmiss with rfl | ⟨q, rfl, hq⟩ | ⟨q, k, ld, rfl, hq, hld⟩
    · rfl
    · simp [hq]
    · simp [hq, hld]
  have hrun := update_rewards_run yaml categoryData (fun _ => false) db req
    u user hn hne hu
  refine ⟨?_, ?_, ?_⟩
  · rw [hrun]
    unfold rewardFlags
    dsimp only
    rw [hempty]
    by_cases hl : req.level <
        ((categoryData.find? (fun p => p.1 == req.category)).map Prod.snd).getD 1
    · simp [hl]
    · simp [hl]
  · intro n hn2
    have hg : (update_rewards yaml categoryData (fun _ => false) db req).1.guessed =
        (guessedInsertsState (fun _ => false) user.id req
          (scoreUpsertState (fun _ => false) db user.id req)).db.guessed := by
      rw [hrun]
      exact totalPointsState_guessed _ _ _ _
    rw [hg]
    unfold guessedInsertsState
    rw [foldl_insertGuessed_mem]
    exact Or.inr ⟨rfl, rfl, rfl, hn2⟩
  · intro hgt
    have hprog : (update_rewards yaml categoryData (fun _ => false) db req).1.progress =
        (scoreUpsertState (fun _ => false) db user.id req).db.progress := by
      rw [hrun]
      exact (totalPointsState_progress _ _ _ _).trans
        (guessedInsertsState_progress _ _ _ _)
    exact (getPoints_congr _ _ user.id req.category req.level hprog).trans
      (scoreUpsertState_points_of_gt db user.id req hgt)


/-- Anatomy of a successful `get_question` run: whenever a `question`
response is returned, the names data was present, the level key
resolved to some `ld`, the shuffled candidate pool starts with the
returned target, and the distractor names are the same-category take-3
followed by the top-up from the shuffled pool. -/
theorem get_question_shape
    (shuffle1 shuffle2 shuffle3 sample3 : List String → List String)
    (imageOf : String → String) (nd : Option NamesYaml)
    (cd : Option CelebYaml) (levelReq categoryReq : String)
    (guessed_names : List String) (t c : String) (fs : List String)
    (lv img : String) (dimgs ds : List String)
    (hq : get_question shuffle1 shuffle2 shuffle3 sample3 imageOf nd cd
      levelReq categoryReq guessed_names = .question t c fs lv img dimgs ds) :
    ∃ q k ld rest d1,
      nd = some q ∧
      q.find? (fun p => p.1 == levelReq) = some (k, ld) ∧
      shuffle1 (candidatePool ld (pyLower categoryReq)
        (guessed_names.map (fun n => pyLower n))) = t :: rest ∧
      d1 = (shuffle2 (((((ld.find? (fun p => p.1 == c)).map
        Prod.snd).getD []).filter (fun n => n != t)))).take 3 ∧
      ds = (if d1.length < 3 then
          d1 ++ (shuffle3 ((t :: rest).filter
            (fun n => !(d1.contains n) && n != t))).take (3 - d1.length)
        else d1) := by
  unfold get_question at hq
  simp only [] at hq
  split at hq
  · exact absurd hq (by simp)
  rename_i q
  split at hq
  · exact absurd hq (by simp)
  rename_i k ld hfind
  split at hq
  · exact absurd hq (by simp)
  rename_i selected rest havail
  split at hq
  · exact absurd hq (by simp)
  rename_i cdl
  split at hq
  · exact absurd hq (by simp)
  rename_i nm entry hfind2
  split at hq
  · exact absurd hq (by simp)
  rename_i c0 crest hcats
  simp only [QuestionResponse.question.injEq] at hq
  obtain ⟨ht, hc, hfs, hlv, himg, hdimgs, hds⟩ := hq
  subst ht hc
  rw [havail] at hds
  exact ⟨q, k, ld, rest, _, rfl, hfind, havail, rfl, hds.symm⟩

/-- C4 (amended): `get_question` never returns a target equal to the
*lowercased form* of a guessed name.  The filter lowercases only the
request's guessed names and compares pool names exactly as written in
the catalog, so this one-sided guarantee is all that holds: the claimed
fully case-insensitive no-repeat fails when a catalog name differs in
case from its guessed spelling (see the counterexample), and coincides
with it only when catalog names are already lowercase. -/
theorem get_question_target_not_lowered_guess
    (shuffle1 shuffle2 shuffle3 sample3 : List String → List String)
    (imageOf : String → String) (nd : Option NamesYaml)
    (cd : Option CelebYaml) (levelReq categoryReq : String)
    (guessed_names : List String) (h1 : ∀ l, (shuffle1 l).Perm l)
    (t c : String) (fs : List String) (lv img : String)
    (dimgs ds : List String)
    (hq : get_question shuffle1 shuffle2 shuffle3 sample3 imageOf nd cd
      levelReq categoryReq guessed_names = .question t c fs lv img dimgs ds) :
    t ∉ guessed_names.map (fun n => pyLower n) := by
  obtain ⟨q, k, ld, rest, d1, -, -, havail, -, -⟩ :=
    get_question_shape shuffle1 shuffle2 shuffle3 sample3 imageOf nd cd
      levelReq categoryReq guessed_names t c fs lv img dimgs ds hq
  intro hmem
  have ht : t ∈ shuffle1 (candidatePool ld (pyLower categoryReq)
      (guessed_names.map (fun n => pyLower n))) := by
    rw [havail]
    exact List.mem_cons_self _ _
  have ht2 := (h1 _).mem_iff.mp ht
  unfold candidatePool at ht2
  have hflt := List.of_mem_filter ht2
  have hc2 : (guessed_names.map (fun n => pyLower n)).contains t = true :=
    List.elem_eq_true_of_mem hmem
  rw [hc2] at hflt
  simp at hflt

/-- C8: exhaustion.  When the level key resolves and every name of the
candidate pool for the requested category (or of the flattened pool for
"mixed") is among the lowercased guessed names — i.e. the pool after
removing guessed names is empty — `get_question` returns the
`noNamesRemaining` signal (the 200 "No more names left to guess"
response), not an error and not a question. -/
theorem get_question_exhausted_no_names
    (shuffle1 shuffle2 shuffle3 sample3 : List String → List String)
    (imageOf : String → String) (nd : NamesYaml) (cd : Option CelebYaml)
    (levelReq categoryReq : String) (guessed_names : List String)
    (k : String) (ld : List (String × List String))
    (h1 : ∀ l, (shuffle1 l).Perm l)
    (hld : nd.find? (fun p => p.1 == levelReq) = some (k, ld))
    (hcover : ∀ n ∈ (if pyLower categoryReq != "mixed" then
        ((ld.find? (fun p => p.1 == pyLower categoryReq)).map
          Prod.snd).getD []
      else (ld.map Prod.snd).flatten),
      n ∈ guessed_names.map (fun n => pyLower n)) :
    get_question shuffle1 shuffle2 shuffle3 sample3 imageOf (some nd) cd
      levelReq categoryReq guessed_names = .noNamesRemaining := by
  have hnil : candidatePool ld (pyLower categoryReq)
      (guessed_names.map (fun n => pyLower n)) = [] := by
    unfold candidatePool
    rw [List.filter_eq_nil_iff]
    intro a ha
    have hmem := hcover a ha
    have hc : (guessed_names.map (fun n => pyLower n)).contains a = true :=
      List.elem_eq_true_of_mem hmem
    rw [hc]
    decide
  have hshuf : shuffle1 (candidatePool ld (pyLower categoryReq)
      (guessed_names.map (fun n => pyLower n))) = [] := by
    rw [hnil]
    exact (h1 []).eq_nil
  unfold get_question
  simp only [hld, hshuf]

theorem nodup_of_lookup (ld : List (String × List String)) (cat : String)
    (hnd : ((ld.map Prod.snd).flatten).Nodup) :
    (((ld.find? (fun p => p.1 == cat)).map Prod.snd).getD []).Nodup := by
  cases hf : ld.find? (fun p => p.1 == cat) with
  | none => simp
  | some pr =>
    obtain ⟨k2, ns⟩ := pr
    have hm : (k2, ns) ∈ ld := List.mem_of_find?_eq_some hf
    have hm2 : ns ∈ ld.map Prod.snd := List.mem_map_of_mem _ hm
    rw [List.nodup_flatten] at hnd
    exact hnd.1 ns hm2

theorem candidatePool_nodup (ld : List (String × List String))
    (cat : String) (guessed : List String)
    (hnd : ((ld.map Prod.snd).flatten).Nodup) :
    (candidatePool ld cat guessed).Nodup := by
  unfold candidatePool
  apply List.Nodup.filter
  split
  · exact nodup_of_lookup ld cat hnd
  · exact hnd

/-- C9 (amended): every returned question carries at most 3 distractor
names and the target is never among them — both unconditionally; and
provided no name is listed twice across the level's category lists (the
flattened catalog for the level is duplicate-free), the distractor names
are pairwise distinct as well.  Without that proviso distinctness fails:
under "mixed", a name listed in two categories enters the top-up pool
twice and can be returned twice (see the counterexample). -/
theorem get_question_distractors_bound
    (shuffle1 shuffle2 shuffle3 sample3 : List String → List String)
    (imageOf : String → String) (nd : Option NamesYaml)
    (cd : Option CelebYaml) (levelReq categoryReq : String)
    (guessed_names : List String)
    (h1 : ∀ l, (shuffle1 l).Perm l) (h2 : ∀ l, (shuffle2 l).Perm l)
    (h3 : ∀ l, (shuffle3 l).Perm l)
    (t c : String) (fs : List String) (lv img : String)
    (dimgs ds : List String)
    (hq : get_question shuffle1 shuffle2 shuffle3 sample3 imageOf nd cd
      levelReq categoryReq guessed_names = .question t c fs lv img dimgs ds) :
    ds.length ≤ 3 ∧ t ∉ ds ∧
    ((∀ pr ∈ nd.getD [], ((pr.2.map Prod.snd).flatten).Nodup) →
      ds.Nodup) := by
  obtain ⟨q, k, ld, rest, d1, hndq, hfind, havail, hd1, hds⟩ :=
    get_question_shape shuffle1 shuffle2 shuffle3 sample3 imageOf nd cd
      levelReq categoryReq guessed_names t c fs lv img dimgs ds hq
  subst hndq
  have hd1_len : d1.length ≤ 3 := by
    rw [hd1, List.length_take]
    exact min_le_left _ _
  have hd1_ne_t : ∀ x ∈ d1, x ≠ t := by
    intro x hx
    rw [hd1] at hx
    have hx2 := List.mem_of_mem_take hx
    have hx3 := (h2 _).mem_iff.mp hx2
    have hflt := List.of_mem_filter hx3
    simpa using hflt
  have hd1_nd_of : ((ld.map Prod.snd).flatten).Nodup → d1.Nodup := by
    intro hq_flat
    have hall_nd : ((((ld.find? (fun p => p.1 == c)).map
        Prod.snd).getD [])).Nodup := nodup_of_lookup ld c hq_flat
    rw [hd1]
    exact ((h2 _).nodup_iff.mpr (hall_nd.filter _)).sublist
      (List.take_sublist _ _)
  by_cases hlt : d1.length < 3
  · rw [if_pos hlt] at hds
    have hadd_sub : ∀ x ∈ (shuffle3 ((t :: rest).filter
        (fun n => !(d1.contains n) && n != t))).take (3 - d1.length),
        x ∉ d1 ∧ x ≠ t := by
      intro x hx
      have hx2 := List.mem_of_mem_take hx
      have hx3 := (h3 _).mem_iff.mp hx2
      have hflt := List.of_mem_filter hx3
      simp only [Bool.and_eq_true, Bool.not_eq_true', bne_iff_ne, ne_eq]
        at hflt
      refine ⟨fun hmem => ?_, hflt.2⟩
      have hcx : d1.contains x = true := List.elem_eq_true_of_mem hmem
      rw [hflt.1] at hcx
      exact absurd hcx (by decide)
    refine ⟨?_, ?_, ?_⟩
    · rw [hds, List.length_append, List.length_take]
      omega
    · rw [hds]
      intro hmem
      rcases List.mem_append.mp hmem with hmem1 | hmem2
      · exact hd1_ne_t t hmem1 rfl
      · exact (hadd_sub t hmem2).2 rfl
    · intro hnodup
      have hq_flat : ((ld.map Prod.snd).flatten).Nodup :=
        hnodup (k, ld) (List.mem_of_find?_eq_some hfind)
      have hpool_nd : (candidatePool ld (pyLower categoryReq)
          (guessed_names.map (fun n => pyLower n))).Nodup :=
        candidatePool_nodup _ _ _ hq_flat
      have havail_nd : (t :: rest).Nodup := by
        rw [← havail]
        exact (h1 _).nodup_iff.mpr hpool_nd
      have hadd_nd : ((shuffle3 ((t :: rest).filter
          (fun n => !(d1.contains n) && n != t))).take
            (3 - d1.length)).Nodup :=
        ((h3 _).nodup_iff.mpr (havail_nd.filter _)).sublist
          (List.take_sublist _ _)
      rw [hds, List.nodup_append]
      exact ⟨hd1_nd_of hq_flat, hadd_nd,
        fun a ha hb => (hadd_sub a hb).1 ha⟩
  · rw [if_neg hlt] at hds
    subst hds
    refine ⟨hd1_len, fun hmem => hd1_ne_t t hmem rfl, fun hnodup => ?_⟩
    exact hd1_nd_of (hnodup (k, ld) (List.mem_of_find?_eq_some hfind))

/-- Witness for C9 (amended) at a concrete run: the returned distractors
["b", "c"] are at most 3, avoid the target "a", and are distinct. -/
theorem get_question_distractors_bound_witness :
    ((["b", "c"] : List String).length ≤ 3) ∧
    ("a" : String) ∉ (["b", "c"] : List String) ∧
    (["b", "c"] : List String).Nodup := by
  have h := get_question_distractors_bound id id id id (fun _ => "img")
    (some [("1", [("actors", ["a", "b", "c"])])])
    (some [("1", [("a", ⟨[], ["actors"]⟩)])])
    "1" "actors" [] (fun l => List.Perm.refl l) (fun l => List.Perm.refl l)
    (fun l => List.Perm.refl l)
    "a" "actors" [] "1" "img" ["img", "img"] ["b", "c"] (by decide)
  exact ⟨h.1, h.2.1, h.2.2 (by decide)⟩

/-- Witness for C10 at a concrete run: category "dogs" is absent from
the catalog, yet the call succeeds with `endGame = true` (maxLevel
defaults to 1) and the guessed name is stored. -/
theorem update_rewards_unknown_category_witness :
    (update_rewards (some [("1", [("cats", ["a"])])]) [] (fun _ => false)
      ⟨[⟨1, "u", 0⟩], [], []⟩ ⟨"dogs", 1, 5, ["x"], some "u", some 7⟩).2 =
      .ok false true ∧
    (⟨1, "dogs", 1, "x"⟩ : GuessedRow) ∈
      (update_rewards (some [("1", [("cats", ["a"])])]) [] (fun _ => false)
        ⟨[⟨1, "u", 0⟩], [], []⟩
        ⟨"dogs", 1, 5, ["x"], some "u", some 7⟩).1.guessed := by
  have h := update_rewards_unknown_category
    (some [("1", [("cats", ["a"])])]) [] ⟨[⟨1, "u", 0⟩], [], []⟩
    ⟨"dogs", 1, 5, ["x"], some "u", some 7⟩ "u" ⟨1, "u", 0⟩ rfl (by decide)
    rfl
    (Or.inr (Or.inr ⟨[("1", [("cats", ["a"])])], "1", [("cats", ["a"])],
      rfl, by decide, by decide⟩))
  refine ⟨?_, h.2.1 "x" (by decide)⟩
  rw [h.1]
  decide

/-- Witness for C2 (amended) at a concrete run: submitting the whole
catalog `{n1, n2}` in the call itself yields `levelUp = true`. -/
theorem update_rewards_flags_from_submitted_delta_witness :
    (update_rewards (some [("1", [("cats", ["n1", "n2"])])]) [("cats", 2)]
      (fun _ => false) ⟨[⟨1, "u", 0⟩], [], []⟩
      ⟨"cats", 1, 5, ["n1", "n2"], some "u", none⟩).2 = .ok true false := by
  have h := update_rewards_flags_from_submitted_delta
    (some [("1", [("cats", ["n1", "n2"])])]) [("cats", 2)] (fun _ => false)
    ⟨[⟨1, "u", 0⟩], [], []⟩ ⟨"cats", 1, 5, ["n1", "n2"], some "u", none⟩
    "u" ⟨1, "u", 0⟩ rfl (by decide) rfl
  rw [h]
  decide

/-- Witness for C3 at a concrete run: 10 points, then 5 points — the
stored points stay 10. -/
theorem update_rewards_monotonic_points_witness :
    (10 : Int) > getPoints ⟨[⟨1, "u", 0⟩], [], []⟩ 1 "cats" 1 ∧
    (5 : Int) < 10 ∧
    getPoints (update_rewards none [] (fun _ => false)
      (update_rewards none [] (fun _ => false) ⟨[⟨1, "u", 0⟩], [], []⟩
        ⟨"cats", 1, 10, [], some "u", none⟩).1
      ⟨"cats", 1, 5, [], some "u", none⟩).1 1 "cats" 1 = 10 :=
  ⟨by decide, by decide,
    ((update_rewards_monotonic_points none [] ⟨[⟨1, "u", 0⟩], [], []⟩ "u"
      ⟨1, "u", 0⟩ "cats" 1 10 5 [] [] none none (by decide) rfl).2.2
      (by decide) (by decide)).1⟩

/-- Witness for C4 (amended) at a concrete run: the returned target
"bob" is not the lowercase of any guessed name. -/
theorem get_question_target_not_lowered_guess_witness :
    ("bob" : String) ∉ (["alice"] : List String).map (fun n => pyLower n) :=
  get_question_target_not_lowered_guess id id id id (fun _ => "img")
    (some [("1", [("actors", ["bob"])])])
    (some [("1", [("bob", ⟨[], ["actors"]⟩)])])
    "1" "actors" ["alice"] (fun l => List.Perm.refl l)
    "bob" "actors" [] "1" "img" [] [] (by decide)

/-- Witness for C6 at a concrete run: re-submitting the already stored
name "a" leaves the stored guessed rows unchanged. -/
theorem update_rewards_guessed_union_witness :
    (update_rewards none [] (fun _ => false)
      ⟨[⟨1, "u", 0⟩], [], [⟨1, "cats", 1, "a"⟩]⟩
      ⟨"cats", 1, 0, ["a"], some "u", none⟩).1.guessed =
      [⟨1, "cats", 1, "a"⟩] :=
  (update_rewards_guessed_union none [] ⟨[⟨1, "u", 0⟩], [], [⟨1, "cats", 1, "a"⟩]⟩
    ⟨"cats", 1, 0, ["a"], some "u", none⟩ "u" ⟨1, "u", 0⟩ rfl (by decide)
    rfl).2 (by decide)

/-- Witness for C8 at a concrete run: with the whole pool guessed
(case-insensitively on the request side), the no-names-remaining signal
is returned. -/
theorem get_question_exhausted_no_names_witness :
    get_question id id id id (fun _ => "img")
      (some [("1", [("actors", ["alice"])])]) none "1" "actors"
      ["Alice"] = .noNamesRemaining :=
  get_question_exhausted_no_names id id id id (fun _ => "img")
    [("1", [("actors", ["alice"])])] none "1" "actors" ["Alice"]
    "1" [("actors", ["alice"])] (fun l => List.Perm.refl l) (by decide)
    (by decide)
